import Mathlib

/-!
Shallow embedding of tiproxy's balance factors (`pkg/balance/factor/factor_cpu.go`
and `pkg/balance/factor/factor_health.go`).

Modelling conventions:
* `float64` values are modelled as `ℚ`; a possibly-NaN float is `Option ℚ`
  with `none` standing for NaN (the Go code always checks `math.IsNaN`
  before using a sample value, so non-NaN arithmetic is exact on `ℚ`).
* Go `int` is `ℤ`; the conversion `int(f)` of a `float64` truncates toward
  zero (`goTrunc`), and Go integer division also truncates toward zero
  (`goDiv`).
* `monotime.Time` is `ℤ` (nanoseconds); `monotime.Since(t)` is `now - t`
  where `now` is passed explicitly.
* Go maps keyed by backend address are association lists
  `List (String × α)` with `mapFind?` / `mapInsert`.
* Methods that mutate the factor or the backend slice return the new
  factor state and the new backend list.
-/

/-- Go `int(f)` conversion of a `float64`: truncation toward zero. -/
def goTrunc (q : ℚ) : ℤ := if 0 ≤ q then ⌊q⌋ else -⌊-q⌋

/-- Go integer division: truncation toward zero (used with positive divisors). -/
def goDiv (a b : ℤ) : ℤ := if 0 ≤ a then a / b else -(-a / b)

/-- Lookup in a Go map modelled as an association list. -/
def mapFind? {α : Type} : List (String × α) → String → Option α
  | [], _ => none
  | p :: m, k => if p.1 = k then some p.2 else mapFind? m k

/-- Insertion (`m[k] = v`) in a Go map modelled as an association list. -/
def mapInsert {α : Type} (m : List (String × α)) (k : String) (v : α) : List (String × α) :=
  (k, v) :: m.filter (fun p => p.1 != k)

/-- `scoredBackend` (defined in `factor.go`, outside the given sources):
address, live connection count, connection score and the composite score
accumulator that factors fold sub-scores into. -/
structure scoredBackend where
  addr : String
  connCount : ℤ
  connScore : ℤ
  score : ℤ
deriving DecidableEq

/-- Modelled from the spec: `scoredBackend.addScore` (defined in `factor.go`,
outside the given sources) folds a factor's sub-score into the composite
score by shifting the accumulator left by `bitNum` bits and OR-ing in the
new value. -/
def addScore (b : scoredBackend) (score : ℤ) (bitNum : ℕ) : scoredBackend :=
  { b with score := Int.lor (b.score * 2 ^ bitNum) score }

/-- Shared shape of both `updateSnapshot` loops: iterate over the backend
list, computing an optional snapshot entry per backend and inserting it
under the backend's address into a fresh map. -/
def buildSnap {α : Type} (f : scoredBackend → Option α) (backends : List scoredBackend) :
    List (String × α) :=
  backends.foldl (fun m b => match f b with | some v => mapInsert m b.addr v | none => m) []

/-! ## Constants (`factor_health.go` and `factor_cpu.go`) -/

/-- `errMetricExpDuration = 1 * time.Minute` in nanoseconds. -/
def errMetricExpDuration : ℤ := 60000000000

/-- `balanceSeconds4Health = 5.0`. -/
def balanceSeconds4Health : ℚ := 5

/-- `cpuEwmaAlpha = 0.5`. -/
def cpuEwmaAlpha : ℚ := 1/2

/-- `cpuMetricExpDuration = 2 * time.Minute` in nanoseconds. -/
def cpuMetricExpDuration : ℤ := 120000000000

/-- `cpuScoreStep = 5`. -/
def cpuScoreStep : ℤ := 5

/-- `minCpuPerConn = 0.001`. -/
def minCpuPerConn : ℚ := 1/1000

/-- `cpuBalancedRatio = 1.2`. -/
def cpuBalancedRatio : ℚ := 6/5

/-- `balanceRatio4Cpu = 600`. -/
def balanceRatio4Cpu : ℚ := 600

/-! ## FactorHealth (`factor_health.go`) -/

/-- `valueRange` with its three ordered constants. -/
inductive ValueRange where
  | normal
  | mid
  | abnormal
deriving DecidableEq

/-- The integer value of a `valueRange` constant (Go `iota`: 0, 1, 2). -/
def ValueRange.ord : ValueRange → ℤ
  | .normal => 0
  | .mid => 1
  | .abnormal => 2

/-- Result of `mr.GetQueryResult` as consumed by `FactorHealth`: error flag,
empty flag, update time, and `GetSample4Backend` keyed by backend address.
A sample is `none` (missing), `some none` (NaN) or `some (some v)`. -/
structure QueryResultH where
  err : Bool
  empty : Bool
  updateTime : ℤ
  sample : String → Option (Option ℚ)

/-- `errIndicator`: thresholds plus the stored `queryResult` (the
`queryExpr`/`queryID` fields play no role in the scoring logic). -/
structure errIndicator where
  failThreshold : ℤ
  recoverThreshold : ℤ
  queryResult : QueryResultH

/-- `healthBackendSnapshot`. -/
structure healthBackendSnapshot where
  updatedTime : ℤ
  valueRange : ValueRange
  balanceCount : ℚ

/-- `FactorHealth` state: snapshot map, indicators, bit width. -/
structure FactorHealth where
  snapshot : List (String × healthBackendSnapshot)
  indicators : List errIndicator
  bitNum : ℕ

/-- `calcValueRange`: classify a sample against an indicator's thresholds.
Missing and NaN samples are Normal; otherwise the value is truncated to an
int and compared, with the direction chosen by `failThreshold > recoverThreshold`. -/
def calcValueRange (sample : Option (Option ℚ)) (indicator : errIndicator) : ValueRange :=
  match sample with
  | none => ValueRange.normal
  | some none => ValueRange.normal
  | some (some v) =>
    let value := goTrunc v
    if indicator.failThreshold > indicator.recoverThreshold then
      if value ≤ indicator.recoverThreshold then ValueRange.normal
      else if value ≥ indicator.failThreshold then ValueRange.abnormal
      else ValueRange.mid
    else
      if value ≥ indicator.recoverThreshold then ValueRange.normal
      else if value ≤ indicator.failThreshold then ValueRange.abnormal
      else ValueRange.mid

/-- Inner loop of `FactorHealth.updateSnapshot` for one backend: fold over
the indicators, skipping stale ones, tracking the latest fresh update time
and the worst value range. -/
def FactorHealth.rangeForBackend (indicators : List errIndicator) (now : ℤ) (addr : String) :
    ℤ × ValueRange :=
  indicators.foldl (fun acc ind =>
    if now - ind.queryResult.updateTime > errMetricExpDuration then acc
    else
      let updatedTime := if ind.queryResult.updateTime > acc.1 then ind.queryResult.updateTime else acc.1
      let vr := calcValueRange (ind.queryResult.sample addr) ind
      (updatedTime, if vr.ord > acc.2.ord then vr else acc.2)) (0, ValueRange.normal)

/-- Body of `FactorHealth.updateSnapshot` for one backend: either the
recomputed snapshot, the reused old one (metrics unavailable but the old
snapshot is still fresh), or nothing. -/
def FactorHealth.snapEntry (fh : FactorHealth) (now : ℤ) (backend : scoredBackend) :
    Option healthBackendSnapshot :=
  let r := FactorHealth.rangeForBackend fh.indicators now backend.addr
  if r.1 = 0 then
    match mapFind? fh.snapshot backend.addr with
    | some snapshot =>
      if now - snapshot.updatedTime < errMetricExpDuration then some snapshot else none
    | none => none
  else
    let balanceCount : ℚ :=
      if r.2.ord ≥ ValueRange.abnormal.ord then
        match mapFind? fh.snapshot backend.addr with
        | some snapshot =>
          if snapshot.balanceCount > 1/10000 then snapshot.balanceCount
          else (backend.connScore : ℚ) / balanceSeconds4Health
        | none => (backend.connScore : ℚ) / balanceSeconds4Health
      else 0
    some { updatedTime := r.1, valueRange := r.2, balanceCount := balanceCount }

/-- `FactorHealth.updateSnapshot`: rebuild the snapshot map from the backend
list, keeping at most one entry per listed backend. -/
def FactorHealth.updateSnapshot (fh : FactorHealth) (now : ℤ) (backends : List scoredBackend) :
    List (String × healthBackendSnapshot) :=
  buildSnap (FactorHealth.snapEntry fh now) backends

/-- `FactorHealth.caclErrScore` (source spelling): the stored value range's
ordinal, with the Go zero value (Normal) for backends absent from the map. -/
def FactorHealth.caclErrScore (fh : FactorHealth) (addr : String) : ℤ :=
  (match mapFind? fh.snapshot addr with
   | some s => s.valueRange
   | none => ValueRange.normal).ord

/-- `FactorHealth.BalanceCount`. The Go map access
`fh.snapshot[from.Addr()].balanceCount` yields 0 for a missing key. -/
def FactorHealth.BalanceCount (fh : FactorHealth) (fromB toB : scoredBackend) : ℚ :=
  let fromScore := FactorHealth.caclErrScore fh fromB.addr
  let toScore := FactorHealth.caclErrScore fh toB.addr
  if fromScore - toScore ≤ 1 then 0
  else
    match mapFind? fh.snapshot fromB.addr with
    | some s => s.balanceCount
    | none => 0

/-- First loop of `FactorHealth.UpdateScore`: per indicator, skip errored or
empty results, store a result whose timestamp changed (setting
`needUpdateSnapshot`), and track the latest update time seen. -/
def FactorHealth.scanStep (acc : List errIndicator × Bool × ℤ) (p : errIndicator × QueryResultH) :
    List errIndicator × Bool × ℤ :=
  let ind := p.1
  let qr := p.2
  if qr.err || qr.empty then (acc.1 ++ [ind], acc.2)
  else
    let changed := ind.queryResult.updateTime != qr.updateTime
    let ind' := if changed then { ind with queryResult := qr } else ind
    let latest := if qr.updateTime > acc.2.2 then qr.updateTime else acc.2.2
    (acc.1 ++ [ind'], acc.2.1 || changed, latest)

/-- Run `FactorHealth.scanStep` over the indicators paired with their
freshly fetched query results. -/
def FactorHealth.scanIndicators (fh : FactorHealth) (qrs : List QueryResultH) :
    List errIndicator × Bool × ℤ :=
  (fh.indicators.zip qrs).foldl FactorHealth.scanStep ([], false, 0)

/-- `FactorHealth.UpdateScore`: no-op for lists of at most one backend;
otherwise scan the indicators, bail out (keeping the updated indicator
results) when the latest update time is stale, rebuild the snapshot when
some result changed, and fold each backend's error score into its
composite score. -/
def FactorHealth.UpdateScore (fh : FactorHealth) (qrs : List QueryResultH) (now : ℤ)
    (backends : List scoredBackend) : FactorHealth × List scoredBackend :=
  if backends.length ≤ 1 then (fh, backends)
  else
    let scanned := FactorHealth.scanIndicators fh qrs
    let fh1 : FactorHealth := { fh with indicators := scanned.1 }
    if now - scanned.2.2 > errMetricExpDuration then (fh1, backends)
    else
      let fh2 :=
        if scanned.2.1 then { fh1 with snapshot := FactorHealth.updateSnapshot fh1 now backends }
        else fh1
      (fh2, backends.map (fun b => addScore b (FactorHealth.caclErrScore fh2 b.addr) fh2.bitNum))

/-! ## FactorCPU (`factor_cpu.go`) -/

/-- `cpuBackendSnapshot`. -/
structure cpuBackendSnapshot where
  updatedTime : ℤ
  avgUsage : ℚ
  latestUsage : ℚ
  connCount : ℤ

/-- Result of `mr.GetQueryResult` as consumed by `FactorCPU`: error flag,
empty flag, update time, and `GetSamplePair4Backend` keyed by backend
address; each sample value is `none` for NaN. -/
structure QueryResultCPU where
  err : Bool
  empty : Bool
  updateTime : ℤ
  samplePairs : String → List (Option ℚ)

/-- `FactorCPU` state: snapshot map, last metric time, usage-per-connection
estimate, bit width. -/
structure FactorCPU where
  snapshot : List (String × cpuBackendSnapshot)
  lastMetricTime : ℤ
  usagePerConn : ℚ
  bitNum : ℕ

/-- Loop body of `calcAvgUsage`: skip NaN samples, otherwise record the
sample as the latest usage and fold it into the EWMA (seeded by the first
non-NaN sample, recognised by the accumulator still being negative). -/
def calcAvgUsageStep (acc : ℚ × ℚ) (value : Option ℚ) : ℚ × ℚ :=
  match value with
  | none => acc
  | some v => (if acc.1 < 0 then v else acc.1 * (1 - cpuEwmaAlpha) + v * cpuEwmaAlpha, v)

/-- `calcAvgUsage`: EWMA over the sample window starting from `(-1, -1)`,
with the final average clamped to at most 1. -/
def calcAvgUsage (usageHistory : List (Option ℚ)) : ℚ × ℚ :=
  let p := usageHistory.foldl calcAvgUsageStep (-1, -1)
  (if p.1 > 1 then 1 else p.1, p.2)

/-- Body of `FactorCPU.updateSnapshot` for one backend: a fresh entry when
the backend has sample pairs with a non-negative average, otherwise the old
entry if it is still within `cpuMetricExpDuration`, otherwise nothing. -/
def FactorCPU.snapEntry (fc : FactorCPU) (qr : QueryResultCPU) (now : ℤ)
    (backend : scoredBackend) : Option cpuBackendSnapshot :=
  let pairs := qr.samplePairs backend.addr
  if pairs.length > 0 ∧ 0 ≤ (calcAvgUsage pairs).1 then
    some { updatedTime := qr.updateTime, avgUsage := (calcAvgUsage pairs).1,
           latestUsage := (calcAvgUsage pairs).2, connCount := backend.connCount }
  else
    match mapFind? fc.snapshot backend.addr with
    | some snapshot =>
      if now - snapshot.updatedTime < cpuMetricExpDuration then some snapshot else none
    | none => none

/-- `FactorCPU.updateSnapshot`: rebuild the snapshot map from the backend
list, keeping at most one entry per listed backend. -/
def FactorCPU.updateSnapshot (fc : FactorCPU) (qr : QueryResultCPU) (now : ℤ)
    (backends : List scoredBackend) : List (String × cpuBackendSnapshot) :=
  buildSnap (FactorCPU.snapEntry fc qr now) backends

/-- Totals loop of `FactorCPU.updateCpuPerConn`: sum latest usage and
connection count over snapshot entries with positive usage and positive
connection count. -/
def cpuTotals (snapshot : List (String × cpuBackendSnapshot)) : ℚ × ℤ :=
  snapshot.foldl (fun acc p =>
    if p.2.latestUsage > 0 ∧ p.2.connCount > 0 then
      (acc.1 + p.2.latestUsage, acc.2 + p.2.connCount)
    else acc) (0, 0)

/-- `FactorCPU.updateCpuPerConn` as a function of the (already updated)
snapshot and the previous estimate, returning the new estimate. -/
def FactorCPU.updateCpuPerConn (snapshot : List (String × cpuBackendSnapshot))
    (usagePerConn : ℚ) : ℚ :=
  let t := cpuTotals snapshot
  let u1 :=
    if t.2 > 0 then
      let newPerConn := t.1 / (t.2 : ℚ)
      if newPerConn < minCpuPerConn then
        if t.1 / (snapshot.length : ℚ) > 1/10 then newPerConn else usagePerConn
      else newPerConn
    else usagePerConn
  if u1 ≤ 0 then minCpuPerConn else u1

/-- `FactorCPU.getUsage`. In the Go source the guard reads
`!ok || snapshot.avgUsage < 0 || latestUsage < 0`, where `latestUsage` is
the named return value, still 0 at that point, so its conjunct is always
false and is omitted here. The extrapolated latest usage is clamped above
at 1 but not below at 0. -/
def FactorCPU.getUsage (fc : FactorCPU) (backend : scoredBackend) : ℚ × ℚ :=
  match mapFind? fc.snapshot backend.addr with
  | none => (1, 1)
  | some snapshot =>
    if snapshot.avgUsage < 0 then (1, 1)
    else
      let latestUsage :=
        snapshot.latestUsage + ((backend.connScore - snapshot.connCount : ℤ) : ℚ) * fc.usagePerConn
      (snapshot.avgUsage, if latestUsage > 1 then 1 else latestUsage)

/-- The sub-score `int(latestUsage*100)/cpuScoreStep` folded by
`FactorCPU.UpdateScore` for one backend. -/
def FactorCPU.subScore (fc : FactorCPU) (backend : scoredBackend) : ℤ :=
  goDiv (goTrunc ((FactorCPU.getUsage fc backend).2 * 100)) cpuScoreStep

/-- `FactorCPU.UpdateScore`: no-op for lists of at most one backend or on an
errored/empty result; refresh the snapshot and the usage-per-connection
estimate when the result's timestamp changed; bail out when the last metric
time is stale; otherwise fold each backend's sub-score into its composite
score. -/
def FactorCPU.UpdateScore (fc : FactorCPU) (qr : QueryResultCPU) (now : ℤ)
    (backends : List scoredBackend) : FactorCPU × List scoredBackend :=
  if backends.length ≤ 1 then (fc, backends)
  else if qr.err || qr.empty then (fc, backends)
  else
    let fc1 :=
      if qr.updateTime != fc.lastMetricTime then
        let fc' : FactorCPU :=
          { fc with lastMetricTime := qr.updateTime,
                    snapshot := FactorCPU.updateSnapshot fc qr now backends }
        { fc' with usagePerConn := FactorCPU.updateCpuPerConn fc'.snapshot fc'.usagePerConn }
      else fc
    if now - fc1.lastMetricTime > cpuMetricExpDuration then (fc1, backends)
    else (fc1, backends.map (fun b => addScore b (FactorCPU.subScore fc1 b) fc1.bitNum))

/-- `FactorCPU.BalanceCount`. -/
def FactorCPU.BalanceCount (fc : FactorCPU) (fromB toB : scoredBackend) : ℤ :=
  let fromUsage := FactorCPU.getUsage fc fromB
  let toUsage := FactorCPU.getUsage fc toB
  if 13/10 - toUsage.1 > (13/10 - fromUsage.1) * cpuBalancedRatio ∧
      13/10 - toUsage.2 > (13/10 - fromUsage.2) * cpuBalancedRatio then
    let balanceCount := goTrunc (1 / fc.usagePerConn / balanceRatio4Cpu)
    if balanceCount > 1 then balanceCount else 1
  else 0

/-! ## Helper lemmas about the map and snapshot-fold model -/

theorem mapInsert_length_le {α : Type} (m : List (String × α)) (k : String) (v : α) :
    (mapInsert m k v).length ≤ m.length + 1 := by
  simpa [mapInsert] using List.length_filter_le _ _

theorem mem_mapInsert {α : Type} {p : String × α} {m : List (String × α)} {k : String} {v : α}
    (h : p ∈ mapInsert m k v) : p = (k, v) ∨ p ∈ m := by
  rcases List.mem_cons.1 h with h | h
  · exact Or.inl h
  · exact Or.inr (List.mem_filter.1 h).1

theorem mapFind?_filter_ne {α : Type} {k k' : String} (m : List (String × α)) (h : k ≠ k') :
    mapFind? (m.filter (fun p => p.1 != k)) k' = mapFind? m k' := by
  induction m with
  | nil => rfl
  | cons a m ih =>
    by_cases ha : a.1 = k
    · simp [mapFind?, ha, h, List.filter_cons, ih]
    · by_cases ha' : a.1 = k'
      · simp [mapFind?, List.filter_cons, ha, ha', bne_iff_ne, Ne.symm h]
      · simp [mapFind?, List.filter_cons, ha, ha', bne_iff_ne, Ne.symm h, ih]

theorem mapFind?_mapInsert {α : Type} (m : List (String × α)) (k k' : String) (v : α) :
    mapFind? (mapInsert m k v) k' = if k = k' then some v else mapFind? m k' := by
  by_cases h : k = k'
  · simp [mapInsert, mapFind?, h]
  · simp [mapInsert, mapFind?, h, mapFind?_filter_ne m h]

theorem mapFind?_mem {α : Type} {m : List (String × α)} {k : String} {v : α}
    (h : mapFind? m k = some v) : (k, v) ∈ m := by
  induction m with
  | nil => simp [mapFind?] at h
  | cons a m ih =>
    by_cases ha : a.1 = k
    · simp only [mapFind?, ha, if_pos, Option.some.injEq] at h
      subst ha
      subst h
      exact List.mem_cons_self _ _
    · simp only [mapFind?, ha, if_neg, if_false] at h
      exact List.mem_cons_of_mem a (ih h)

theorem buildSnap_go_length {α : Type} (f : scoredBackend → Option α) :
    ∀ (bs : List scoredBackend) (m : List (String × α)),
      (bs.foldl (fun m b => match f b with | some v => mapInsert m b.addr v | none => m) m).length
        ≤ m.length + bs.length := by
  intro bs
  induction bs with
  | nil => simp
  | cons b bs ih =>
    intro m
    rw [List.foldl_cons]
    cases h : f b with
    | none =>
      simp only [h]
      calc _ ≤ m.length + bs.length := ih m
        _ ≤ m.length + (b :: bs).length := by simp only [List.length_cons]; omega
    | some v =>
      simp only [h]
      calc _ ≤ (mapInsert m b.addr v).length + bs.length := ih _
        _ ≤ m.length + 1 + bs.length := by
            have := mapInsert_length_le m b.addr v; omega
        _ ≤ m.length + (b :: bs).length := by simp only [List.length_cons]; omega

theorem buildSnap_length {α : Type} (f : scoredBackend → Option α) (bs : List scoredBackend) :
    (buildSnap f bs).length ≤ bs.length := by
  simpa using buildSnap_go_length f bs []

theorem buildSnap_go_mem {α : Type} (f : scoredBackend → Option α) :
    ∀ (bs : List scoredBackend) (m : List (String × α)) (p : String × α),
      p ∈ bs.foldl (fun m b => match f b with | some v => mapInsert m b.addr v | none => m) m →
      p ∈ m ∨ ∃ b ∈ bs, b.addr = p.1 ∧ f b = some p.2 := by
  intro bs
  induction bs with
  | nil => intro m p h; exact Or.inl h
  | cons b bs ih =>
    intro m p h
    rw [List.foldl_cons] at h
    cases hf : f b with
    | none =>
      simp only [hf] at h
      rcases ih m p h with h' | ⟨b', hb', ha, hv⟩
      · exact Or.inl h'
      · exact Or.inr ⟨b', List.mem_cons_of_mem b hb', ha, hv⟩
    | some v =>
      simp only [hf] at h
      rcases ih _ p h with h' | ⟨b', hb', ha, hv⟩
      · rcases mem_mapInsert h' with h'' | h''
        · refine Or.inr ⟨b, List.mem_cons_self b bs, ?_, ?_⟩
          · rw [h'']
          · rw [h'', hf]
        · exact Or.inl h''
      · exact Or.inr ⟨b', List.mem_cons_of_mem b hb', ha, hv⟩

theorem buildSnap_mem {α : Type} (f : scoredBackend → Option α) (bs : List scoredBackend)
    (p : String × α) (h : p ∈ buildSnap f bs) : ∃ b ∈ bs, b.addr = p.1 ∧ f b = some p.2 := by
  rcases buildSnap_go_mem f bs [] p h with h' | h'
  · simp at h'
  · exact h'

theorem buildSnap_go_find {α : Type} (f : scoredBackend → Option α) :
    ∀ (bs : List scoredBackend) (m : List (String × α)) (k : String) (v : α),
      mapFind? (bs.foldl (fun m b => match f b with | some v => mapInsert m b.addr v | none => m) m) k
        = some v →
      mapFind? m k = some v ∨ ∃ b ∈ bs, b.addr = k ∧ f b = some v := by
  intro bs
  induction bs with
  | nil => intro m k v h; exact Or.inl h
  | cons b bs ih =>
    intro m k v h
    rw [List.foldl_cons] at h
    cases hf : f b with
    | none =>
      simp only [hf] at h
      rcases ih m k v h with h' | ⟨b', hb', ha, hv⟩
      · exact Or.inl h'
      · exact Or.inr ⟨b', List.mem_cons_of_mem b hb', ha, hv⟩
    | some w =>
      simp only [hf] at h
      rcases ih _ k v h with h' | ⟨b', hb', ha, hv⟩
      · rw [mapFind?_mapInsert] at h'
        by_cases hk : b.addr = k
        · simp only [hk, if_pos] at h'
          exact Or.inr ⟨b, List.mem_cons_self b bs, hk, by rw [hf, h']⟩
        · simp only [hk, if_neg, if_false] at h'
          exact Or.inl h'
      · exact Or.inr ⟨b', List.mem_cons_of_mem b hb', ha, hv⟩

theorem buildSnap_find {α : Type} (f : scoredBackend → Option α) (bs : List scoredBackend)
    (k : String) (v : α) (h : mapFind? (buildSnap f bs) k = some v) :
    ∃ b ∈ bs, b.addr = k ∧ f b = some v := by
  rcases buildSnap_go_find f bs [] k v h with h' | h'
  · simp [mapFind?] at h'
  · exact h'

/-! ## C10: snapshot maps only hold listed backends -/

/-- C10: after every snapshot update of `FactorHealth` or `FactorCPU`, the
per-backend snapshot map contains only addresses of backends present in the
backend list passed to that update (state for absent backends is discarded
even if still fresh), and the map's size never exceeds the backend count. -/
theorem snapshot_keys_subset (fh : FactorHealth) (fc : FactorCPU) (qr : QueryResultCPU)
    (now now' : ℤ) (backends : List scoredBackend) :
    (∀ p ∈ FactorHealth.updateSnapshot fh now backends,
        p.1 ∈ backends.map scoredBackend.addr) ∧
    (FactorHealth.updateSnapshot fh now backends).length ≤ backends.length ∧
    (∀ p ∈ FactorCPU.updateSnapshot fc qr now' backends,
        p.1 ∈ backends.map scoredBackend.addr) ∧
    (FactorCPU.updateSnapshot fc qr now' backends).length ≤ backends.length := by
  refine ⟨?_, buildSnap_length _ _, ?_, buildSnap_length _ _⟩
  · intro p hp
    rcases buildSnap_mem _ _ p hp with ⟨b, hb, ha, _⟩
    exact ha ▸ List.mem_map_of_mem scoredBackend.addr hb
  · intro p hp
    rcases buildSnap_mem _ _ p hp with ⟨b, hb, ha, _⟩
    exact ha ▸ List.mem_map_of_mem scoredBackend.addr hb

def c10fh : FactorHealth :=
  { snapshot := [],
    indicators := [{ failThreshold := 50, recoverThreshold := 10,
                     queryResult := { err := false, empty := false, updateTime := 1,
                                      sample := fun _ => some (some 60) } }],
    bitNum := 2 }

def c10fc : FactorCPU := { snapshot := [], lastMetricTime := 0, usagePerConn := 0, bitNum := 5 }

def c10qr : QueryResultCPU := { err := false, empty := false, updateTime := 0, samplePairs := fun _ => [] }

def c10b : scoredBackend := { addr := "a", connCount := 3, connScore := 10, score := 0 }

def c10entry : healthBackendSnapshot :=
  { updatedTime := 1, valueRange := ValueRange.abnormal, balanceCount := 2 }

/-- Witness for `snapshot_keys_subset` at a concrete one-backend update. -/
theorem snapshot_keys_subset_witness :
    (("a"), c10entry).1 ∈ [c10b].map scoredBackend.addr :=
  (snapshot_keys_subset c10fh c10fc c10qr 1 0 [c10b]).1 (("a"), c10entry) (by
    norm_num [FactorHealth.updateSnapshot, buildSnap, FactorHealth.snapEntry,
      FactorHealth.rangeForBackend, calcValueRange, goTrunc, mapFind?, mapInsert,
      errMetricExpDuration, balanceSeconds4Health, c10fh, c10b, c10entry, ValueRange.ord])

/-! ## C8: bounds on stored usages -/

theorem calcAvgUsage_fst_le_one (l : List (Option ℚ)) : (calcAvgUsage l).1 ≤ 1 := by
  by_cases h : (l.foldl calcAvgUsageStep (-1, -1)).1 > 1
  · simp [calcAvgUsage, h]
  · simp only [calcAvgUsage, if_neg h]
    linarith

def c8fc : FactorCPU := { snapshot := [], lastMetricTime := 0, usagePerConn := 0, bitNum := 5 }

def c8qr : QueryResultCPU :=
  { err := false, empty := false, updateTime := 7, samplePairs := fun _ => [some 2] }

def c8b : scoredBackend := { addr := "a", connCount := 1, connScore := 1, score := 0 }

/-- Counterexample to C8 as stated: a sample window `[2.0]` is stored with
`latestUsage = 2`, outside `[0,1]` — only the average is clamped. -/
theorem cpu_latestUsage_unclamped_cex :
    (mapFind? (FactorCPU.updateSnapshot c8fc c8qr 0 [c8b]) ("a")).map
        cpuBackendSnapshot.latestUsage = some 2 ∧ ¬ ((2:ℚ) ≤ 1) := by
  constructor
  · norm_num [FactorCPU.updateSnapshot, buildSnap, FactorCPU.snapEntry, calcAvgUsage,
      calcAvgUsageStep, cpuEwmaAlpha, mapFind?, mapInsert, c8fc, c8qr, c8b]
  · norm_num

/-- C8 (amended): every `avgUsage` stored by `FactorCPU.updateSnapshot` lies
in `[0,1]` (assuming the old snapshot already satisfied this), regardless
of sample magnitude; the stored `latestUsage` is the raw last non-NaN sample
and is not clamped. -/
theorem cpu_avgUsage_bounds (fc : FactorCPU) (qr : QueryResultCPU) (now : ℤ)
    (backends : List scoredBackend)
    (hold : ∀ p ∈ fc.snapshot, 0 ≤ p.2.avgUsage ∧ p.2.avgUsage ≤ 1) :
    ∀ p ∈ FactorCPU.updateSnapshot fc qr now backends,
      0 ≤ p.2.avgUsage ∧ p.2.avgUsage ≤ 1 := by
  intro p hp
  rcases buildSnap_mem _ _ p hp with ⟨b, _, _, hv⟩
  simp only [FactorCPU.snapEntry] at hv
  split at hv
  · rename_i hcond
    have h2 := Option.some.inj hv
    rw [← h2]
    exact ⟨hcond.2, calcAvgUsage_fst_le_one _⟩
  · split at hv
    · rename_i s hs
      split at hv
      · have h2 := Option.some.inj hv
        rw [← h2]
        exact hold _ (mapFind?_mem hs)
      · cases hv
    · cases hv

def c8wfc : FactorCPU := { snapshot := [], lastMetricTime := 0, usagePerConn := 0, bitNum := 5 }

def c8wqr : QueryResultCPU :=
  { err := false, empty := false, updateTime := 7, samplePairs := fun _ => [some (1/2)] }

def c8wb : scoredBackend := { addr := "a", connCount := 1, connScore := 1, score := 0 }

def c8wentry : cpuBackendSnapshot :=
  { updatedTime := 7, avgUsage := 1/2, latestUsage := 1/2, connCount := 1 }

/-- Witness for `cpu_avgUsage_bounds` at a concrete one-backend update. -/
theorem cpu_avgUsage_bounds_witness :
    0 ≤ (("a"), c8wentry).2.avgUsage ∧ (("a"), c8wentry).2.avgUsage ≤ 1 :=
  cpu_avgUsage_bounds c8wfc c8wqr 0 [c8wb]
    (by intro p hp; simp [c8wfc] at hp)
    (("a"), c8wentry)
    (by norm_num [FactorCPU.updateSnapshot, buildSnap, FactorCPU.snapEntry, calcAvgUsage,
      calcAvgUsageStep, cpuEwmaAlpha, mapFind?, mapInsert, c8wfc, c8wqr, c8wb, c8wentry])

/-! ## C4: health balance count invariant -/

/-- Reachable-state invariant of the health snapshot map: a nonzero balance
count occurs only on Abnormal entries, and a nonzero balance count is at
least `1/5` (one connection score unit over `balanceSeconds4Health`). -/
def healthSnapInv (m : List (String × healthBackendSnapshot)) : Prop :=
  ∀ p ∈ m, (p.2.balanceCount ≠ 0 → p.2.valueRange = ValueRange.abnormal) ∧
    (p.2.balanceCount = 0 ∨ 1/5 ≤ p.2.balanceCount)

theorem ValueRange.eq_abnormal_of_ord_ge {vr : ValueRange}
    (h : ValueRange.abnormal.ord ≤ vr.ord) : vr = ValueRange.abnormal := by
  cases vr
  · exact absurd h (by norm_num [ValueRange.ord])
  · exact absurd h (by norm_num [ValueRange.ord])
  · rfl

theorem connScore_div_cases {n : ℤ} (hn : 0 ≤ n) :
    (n : ℚ) / balanceSeconds4Health = 0 ∨ 1/5 ≤ (n : ℚ) / balanceSeconds4Health := by
  rcases hn.eq_or_lt with h | h
  · left
    rw [← h]
    norm_num
  · right
    have h1 : (1 : ℚ) ≤ (n : ℚ) := by exact_mod_cast h
    rw [balanceSeconds4Health]
    linarith

theorem health_snapEntry_inv (fh : FactorHealth) (now : ℤ) (b : scoredBackend)
    (s' : healthBackendSnapshot) (hinv : healthSnapInv fh.snapshot) (hb : 0 ≤ b.connScore)
    (hv : FactorHealth.snapEntry fh now b = some s') :
    (s'.balanceCount ≠ 0 → s'.valueRange = ValueRange.abnormal) ∧
      (s'.balanceCount = 0 ∨ 1/5 ≤ s'.balanceCount) := by
  simp only [FactorHealth.snapEntry] at hv
  split at hv
  · split at hv
    · rename_i s hs
      split at hv
      · have h2 := Option.some.inj hv
        rw [← h2]
        exact hinv _ (mapFind?_mem hs)
      · cases hv
    · cases hv
  · have h2 := Option.some.inj hv
    rw [← h2]
    constructor
    · intro hne
      split at hne
      · rename_i hord
        exact ValueRange.eq_abnormal_of_ord_ge hord
      · exact absurd rfl hne
    · split
      · rename_i hord
        split
        · rename_i s hs
          split
          · rename_i hgt
            rcases (hinv _ (mapFind?_mem hs)).2 with h0 | h5
            · rw [h0] at hgt
              norm_num at hgt
            · exact Or.inr h5
          · exact connScore_div_cases hb
        · exact connScore_div_cases hb
      · exact Or.inl rfl

theorem health_snapEntry_mono (fh : FactorHealth) (now : ℤ) (b : scoredBackend)
    (s s' : healthBackendSnapshot) (hinv : healthSnapInv fh.snapshot) (hb : 0 ≤ b.connScore)
    (hs : mapFind? fh.snapshot b.addr = some s)
    (hv : FactorHealth.snapEntry fh now b = some s')
    (habn' : s'.valueRange = ValueRange.abnormal) :
    s.balanceCount ≤ s'.balanceCount := by
  simp only [FactorHealth.snapEntry] at hv
  split at hv
  · split at hv
    · rename_i s2 hs2
      split at hv
      · have h2 := Option.some.inj hv
        rw [hs] at hs2
        have h3 := Option.some.inj hs2
        subst h3
        rw [← h2]
      · cases hv
    · rename_i hs2
      rw [hs] at hs2
      simp at hs2
  · have h2 := Option.some.inj hv
    rw [← h2] at habn' ⊢
    simp only at habn' ⊢
    split
    · split
      · rename_i s2 hs2
        rw [hs] at hs2
        have h3 := Option.some.inj hs2
        subst h3
        split
        · exact le_refl _
        · rename_i hngt
          rcases (hinv _ (mapFind?_mem hs)).2 with h0 | h5
          · rw [h0]
            rcases connScore_div_cases (n := b.connScore) hb with h | h
            · rw [h]
            · linarith
          · exact absurd (by linarith : s.balanceCount > 1/10000) hngt
      · rename_i hs2
        rw [hs] at hs2
        simp at hs2
    · rename_i hord
      rw [habn'] at hord
      exact absurd (le_refl ValueRange.abnormal.ord) hord

/-- C4: for every sequence of `FactorHealth` snapshot updates over states
satisfying the reachable-state invariant, a backend's stored `balanceCount`
is nonzero only while its classified range is Abnormal, and it never
decreases across an update while the backend remains Abnormal. -/
theorem health_balanceCount_invariant (fh : FactorHealth) (now : ℤ)
    (backends : List scoredBackend) (hinv : healthSnapInv fh.snapshot)
    (hconn : ∀ b ∈ backends, 0 ≤ b.connScore) :
    healthSnapInv (FactorHealth.updateSnapshot fh now backends) ∧
    ∀ addr s s', mapFind? fh.snapshot addr = some s →
      mapFind? (FactorHealth.updateSnapshot fh now backends) addr = some s' →
      s.valueRange = ValueRange.abnormal → s'.valueRange = ValueRange.abnormal →
      s.balanceCount ≤ s'.balanceCount := by
  constructor
  · intro p hp
    rcases buildSnap_mem _ _ p hp with ⟨b, hb, _, hv⟩
    exact health_snapEntry_inv fh now b p.2 hinv (hconn b hb) hv
  · intro addr s s' hs hs' _ habn'
    rcases buildSnap_find _ _ _ _ hs' with ⟨b, hb, haddr, hv⟩
    exact health_snapEntry_mono fh now b s s' hinv (hconn b hb) (haddr.symm ▸ hs) hv habn'

def c4fh : FactorHealth :=
  { snapshot := [(("a"), { updatedTime := 1, valueRange := ValueRange.abnormal, balanceCount := 2 })],
    indicators := [{ failThreshold := 50, recoverThreshold := 10,
                     queryResult := { err := false, empty := false, updateTime := 5,
                                      sample := fun _ => some (some 60) } }],
    bitNum := 2 }

def c4b : scoredBackend := { addr := "a", connCount := 3, connScore := 10, score := 0 }

def c4s : healthBackendSnapshot :=
  { updatedTime := 1, valueRange := ValueRange.abnormal, balanceCount := 2 }

def c4s2 : healthBackendSnapshot :=
  { updatedTime := 5, valueRange := ValueRange.abnormal, balanceCount := 2 }

/-- Witness for `health_balanceCount_invariant`: one concrete update of an
Abnormal backend that keeps its balance count. -/
theorem health_balanceCount_invariant_witness : c4s.balanceCount ≤ c4s2.balanceCount :=
  (health_balanceCount_invariant c4fh 5 [c4b]
      (by
        intro p hp
        simp [c4fh] at hp
        rw [hp]
        exact ⟨fun _ => rfl, Or.inr (by norm_num)⟩)
      (by
        intro b hb
        simp at hb
        rw [hb]
        norm_num [c4b])).2
    ("a") c4s c4s2
    (by norm_num [c4fh, c4s, mapFind?])
    (by norm_num [FactorHealth.updateSnapshot, buildSnap, FactorHealth.snapEntry,
      FactorHealth.rangeForBackend, calcValueRange, goTrunc, mapFind?, mapInsert,
      errMetricExpDuration, balanceSeconds4Health, c4fh, c4b, c4s2, ValueRange.ord])
    rfl rfl

/-! ## C3: threshold classification -/

def c3ind : errIndicator :=
  { failThreshold := 50, recoverThreshold := 10,
    queryResult := { err := false, empty := false, updateTime := 0, sample := fun _ => none } }

/-- Counterexample to C3 as stated: with thresholds 50/10 the fractional
sample 10.5 is neither at/below recoverThreshold nor at/above failThreshold,
so the claim classifies it Mid, but the code truncates it to 10 first and
classifies it Normal. -/
theorem calcValueRange_fractional_cex :
    c3ind.failThreshold > c3ind.recoverThreshold ∧
    ¬ ((21/2 : ℚ) ≤ (c3ind.recoverThreshold : ℚ)) ∧
    ¬ ((c3ind.failThreshold : ℚ) ≤ (21/2 : ℚ)) ∧
    calcValueRange (some (some (21/2))) c3ind ≠ ValueRange.mid := by
  refine ⟨by norm_num [c3ind], by norm_num [c3ind], by norm_num [c3ind], ?_⟩
  have h : calcValueRange (some (some (21/2))) c3ind = ValueRange.normal := by
    norm_num [calcValueRange, c3ind, goTrunc]
  rw [h]
  exact (by decide : ValueRange.normal ≠ ValueRange.mid)

/-- C3 (amended): for an ascending-bad indicator (failThreshold >
recoverThreshold) the classification applies to the sample value truncated
toward zero: truncated value ≤ recoverThreshold is Normal, ≥ failThreshold
is Abnormal, otherwise Mid; a missing sample and a NaN sample are Normal. -/
theorem calcValueRange_classification (ind : errIndicator) (v : ℚ)
    (h : ind.failThreshold > ind.recoverThreshold) :
    (goTrunc v ≤ ind.recoverThreshold → calcValueRange (some (some v)) ind = ValueRange.normal) ∧
    (ind.failThreshold ≤ goTrunc v → calcValueRange (some (some v)) ind = ValueRange.abnormal) ∧
    (ind.recoverThreshold < goTrunc v → goTrunc v < ind.failThreshold →
      calcValueRange (some (some v)) ind = ValueRange.mid) ∧
    calcValueRange none ind = ValueRange.normal ∧
    calcValueRange (some none) ind = ValueRange.normal := by
  refine ⟨?_, ?_, ?_, rfl, rfl⟩
  · intro h1
    simp [calcValueRange, h, h1]
  · intro h1
    have hnot : ¬ (goTrunc v ≤ ind.recoverThreshold) := by omega
    simp [calcValueRange, h, hnot, h1]
  · intro h1 h2
    have hnot : ¬ (goTrunc v ≤ ind.recoverThreshold) := by omega
    have hnot2 : ¬ (ind.failThreshold ≤ goTrunc v) := by omega
    simp [calcValueRange, h, hnot, hnot2]

/-- Witness for `calcValueRange_classification` at the sample 5. -/
theorem calcValueRange_classification_witness :
    calcValueRange (some (some 5)) c3ind = ValueRange.normal :=
  (calcValueRange_classification c3ind 5 (by norm_num [c3ind])).1
    (by norm_num [c3ind, goTrunc])

/-! ## C7: EWMA progression -/

/-- C7: the EWMA over samples [0.1, 0.3, 0.5] with alpha 0.5 progresses
0.1, 0.2, 0.35, the returned latest usage is the last raw sample 0.5, and
in general each non-NaN sample moves a non-negative average exactly halfway
toward itself. -/
theorem ewma_progression :
    calcAvgUsage [some (1/10)] = (1/10, 1/10) ∧
    calcAvgUsage [some (1/10), some (3/10)] = (1/5, 3/10) ∧
    calcAvgUsage [some (1/10), some (3/10), some (1/2)] = (7/20, 1/2) ∧
    ∀ avg latest v : ℚ, 0 ≤ avg →
      (calcAvgUsageStep (avg, latest) (some v)).1 = avg + (v - avg) / 2 := by
  refine ⟨?_, ?_, ?_, ?_⟩
  · norm_num [calcAvgUsage, calcAvgUsageStep, cpuEwmaAlpha]
  · norm_num [calcAvgUsage, calcAvgUsageStep, cpuEwmaAlpha]
  · norm_num [calcAvgUsage, calcAvgUsageStep, cpuEwmaAlpha]
  · intro avg latest v h
    simp only [calcAvgUsageStep, cpuEwmaAlpha]
    rw [if_neg (not_lt.2 h)]
    ring

/-- Witness for `ewma_progression`'s halfway-step at (0.1, 0.3). -/
theorem ewma_progression_witness :
    (calcAvgUsageStep (1/10, 1/10) (some (3/10))).1 = 1/10 + (3/10 - 1/10) / 2 :=
  ewma_progression.2.2.2 (1/10) (1/10) (3/10) (by norm_num)

/-! ## C9: usage-per-connection guard -/

theorem cpuTotals_inv (snapshot : List (String × cpuBackendSnapshot)) :
    0 ≤ (cpuTotals snapshot).1 ∧ 0 ≤ (cpuTotals snapshot).2 ∧
      (0 < (cpuTotals snapshot).2 → 0 < (cpuTotals snapshot).1) := by
  suffices h : ∀ (l : List (String × cpuBackendSnapshot)) (a : ℚ × ℤ),
      0 ≤ a.1 → 0 ≤ a.2 → (0 < a.2 → 0 < a.1) →
      0 ≤ (l.foldl (fun acc p =>
        if p.2.latestUsage > 0 ∧ p.2.connCount > 0 then
          (acc.1 + p.2.latestUsage, acc.2 + p.2.connCount)
        else acc) a).1 ∧
      0 ≤ (l.foldl (fun acc p =>
        if p.2.latestUsage > 0 ∧ p.2.connCount > 0 then
          (acc.1 + p.2.latestUsage, acc.2 + p.2.connCount)
        else acc) a).2 ∧
      (0 < (l.foldl (fun acc p =>
        if p.2.latestUsage > 0 ∧ p.2.connCount > 0 then
          (acc.1 + p.2.latestUsage, acc.2 + p.2.connCount)
        else acc) a).2 →
       0 < (l.foldl (fun acc p =>
        if p.2.latestUsage > 0 ∧ p.2.connCount > 0 then
          (acc.1 + p.2.latestUsage, acc.2 + p.2.connCount)
        else acc) a).1) by
    exact h snapshot (0, 0) (le_refl 0) (le_refl 0) (fun hc => absurd hc (by norm_num))
  intro l
  induction l with
  | nil => intro a h1 h2 h3; exact ⟨h1, h2, h3⟩
  | cons p l ih =>
    intro a h1 h2 h3
    rw [List.foldl_cons]
    by_cases hc : p.2.latestUsage > 0 ∧ p.2.connCount > 0
    · rw [if_pos hc]
      exact ih _ (by simp only []; linarith [hc.1]) (by simp only []; omega)
        (fun _ => by simp only []; linarith [hc.1])
    · rw [if_neg hc]
      exact ih a h1 h2 h3

/-- C9: `updateCpuPerConn` adopts a below-floor estimate only when the
average instant usage over the snapshot exceeds 10%, otherwise keeps the
previous estimate; an at/above-floor estimate is always adopted; and when
no estimate can be computed the previous value is kept, falling back to the
floor 0.001 whenever it is non-positive. -/
theorem updateCpuPerConn_guard (snapshot : List (String × cpuBackendSnapshot)) (old : ℚ) :
    (0 < (cpuTotals snapshot).2 →
      (cpuTotals snapshot).1 / ((cpuTotals snapshot).2 : ℚ) < minCpuPerConn →
      1/10 < (cpuTotals snapshot).1 / (snapshot.length : ℚ) →
      FactorCPU.updateCpuPerConn snapshot old
        = (cpuTotals snapshot).1 / ((cpuTotals snapshot).2 : ℚ)) ∧
    (0 < (cpuTotals snapshot).2 →
      (cpuTotals snapshot).1 / ((cpuTotals snapshot).2 : ℚ) < minCpuPerConn →
      ¬ (1/10 < (cpuTotals snapshot).1 / (snapshot.length : ℚ)) →
      FactorCPU.updateCpuPerConn snapshot old = if old ≤ 0 then minCpuPerConn else old) ∧
    (0 < (cpuTotals snapshot).2 →
      ¬ ((cpuTotals snapshot).1 / ((cpuTotals snapshot).2 : ℚ) < minCpuPerConn) →
      FactorCPU.updateCpuPerConn snapshot old
        = (cpuTotals snapshot).1 / ((cpuTotals snapshot).2 : ℚ)) ∧
    ((cpuTotals snapshot).2 ≤ 0 →
      FactorCPU.updateCpuPerConn snapshot old = if old ≤ 0 then minCpuPerConn else old) := by
  have hup : 0 < (cpuTotals snapshot).2 →
      0 < (cpuTotals snapshot).1 / ((cpuTotals snapshot).2 : ℚ) := by
    intro hc
    exact div_pos ((cpuTotals_inv snapshot).2.2 hc) (by exact_mod_cast hc)
  refine ⟨?_, ?_, ?_, ?_⟩
  · intro hc hlt havg
    simp only [FactorCPU.updateCpuPerConn]
    rw [if_pos hc, if_pos hlt, if_pos havg, if_neg (not_le.2 (hup hc))]
  · intro hc hlt havg
    simp only [FactorCPU.updateCpuPerConn]
    rw [if_pos hc, if_pos hlt, if_neg havg]
  · intro hc hge
    simp only [FactorCPU.updateCpuPerConn]
    rw [if_pos hc, if_neg hge, if_neg (not_le.2 (hup hc))]
  · intro hc
    simp only [FactorCPU.updateCpuPerConn]
    rw [if_neg (not_lt.2 hc)]

def c9snap : List (String × cpuBackendSnapshot) :=
  [(("a"), { updatedTime := 0, avgUsage := 1/2, latestUsage := 1/2, connCount := 1000 })]

/-- Witness for `updateCpuPerConn_guard`: below-floor estimate adopted
because the average instant usage is 50%. -/
theorem updateCpuPerConn_guard_witness :
    FactorCPU.updateCpuPerConn c9snap (3/1000)
      = (cpuTotals c9snap).1 / ((cpuTotals c9snap).2 : ℚ) :=
  (updateCpuPerConn_guard c9snap (3/1000)).1
    (by norm_num [cpuTotals, c9snap])
    (by norm_num [cpuTotals, c9snap, minCpuPerConn])
    (by norm_num [cpuTotals, c9snap])

/-! ## C5: health migration count gap rule -/

theorem caclErrScore_bound (fh : FactorHealth) (addr : String) :
    0 ≤ FactorHealth.caclErrScore fh addr ∧ FactorHealth.caclErrScore fh addr < 4 := by
  unfold FactorHealth.caclErrScore
  split
  · rename_i s _
    cases s.valueRange <;> norm_num [ValueRange.ord]
  · norm_num [ValueRange.ord]

/-- C5: `FactorHealth.BalanceCount` returns 0 whenever the range-ordinal gap
between from and to is at most 1, and returns from's stored balance count
(which exists and belongs to an Abnormal entry) when the gap exceeds 1. -/
theorem health_balanceCount_gap (fh : FactorHealth) (fromB toB : scoredBackend) :
    (FactorHealth.caclErrScore fh fromB.addr - FactorHealth.caclErrScore fh toB.addr ≤ 1 →
      FactorHealth.BalanceCount fh fromB toB = 0) ∧
    (1 < FactorHealth.caclErrScore fh fromB.addr - FactorHealth.caclErrScore fh toB.addr →
      ∃ s, mapFind? fh.snapshot fromB.addr = some s ∧
        s.valueRange = ValueRange.abnormal ∧
        FactorHealth.BalanceCount fh fromB toB = s.balanceCount) := by
  constructor
  · intro h
    simp only [FactorHealth.BalanceCount]
    rw [if_pos h]
  · intro h
    have hts := (caclErrScore_bound fh toB.addr).1
    rcases hfind : mapFind? fh.snapshot fromB.addr with _ | s
    · have h0 : FactorHealth.caclErrScore fh fromB.addr = 0 := by
        unfold FactorHealth.caclErrScore
        rw [hfind]
        rfl
      omega
    · have hfs : FactorHealth.caclErrScore fh fromB.addr = s.valueRange.ord := by
        unfold FactorHealth.caclErrScore
        rw [hfind]
      refine ⟨s, rfl, ?_, ?_⟩
      · cases hvr : s.valueRange
        · rw [hvr] at hfs
          simp [ValueRange.ord] at hfs
          omega
        · rw [hvr] at hfs
          simp [ValueRange.ord] at hfs
          omega
        · rfl
      · simp only [FactorHealth.BalanceCount]
        rw [if_neg (by omega), hfind]

def c5fh : FactorHealth :=
  { snapshot := [(("f"), { updatedTime := 1, valueRange := ValueRange.abnormal, balanceCount := 3 })],
    indicators := [], bitNum := 2 }

def c5from : scoredBackend := { addr := "f", connCount := 0, connScore := 0, score := 0 }

def c5to : scoredBackend := { addr := "t", connCount := 0, connScore := 0, score := 0 }

/-- Witness for `health_balanceCount_gap`: an Abnormal-to-missing pair has
gap 2 and yields the stored count; the reverse pair has gap -2 and yields 0. -/
theorem health_balanceCount_gap_witness :
    FactorHealth.BalanceCount c5fh c5to c5from = 0 ∧
    (∃ s, mapFind? c5fh.snapshot c5from.addr = some s ∧
      s.valueRange = ValueRange.abnormal ∧
      FactorHealth.BalanceCount c5fh c5from c5to = s.balanceCount) :=
  ⟨(health_balanceCount_gap c5fh c5to c5from).1
      (by norm_num [FactorHealth.caclErrScore, c5fh, c5to, c5from, mapFind?, ValueRange.ord,
        show ("f":String) ≠ "t" by decide]),
   (health_balanceCount_gap c5fh c5from c5to).2
      (by norm_num [FactorHealth.caclErrScore, c5fh, c5to, c5from, mapFind?, ValueRange.ord,
        show ("f":String) ≠ "t" by decide])⟩

/-! ## C6: cpu migration count -/

/-- C6: `FactorCPU.BalanceCount` is positive exactly when the headroom test
`1.3 - toUsage > (1.3 - fromUsage) * 1.2` holds for both the averaged and
the instant usage simultaneously; it is 0 when either fails, and when
positive it equals `max 1 ⌊1 / usagePerConn / 600⌋`. -/
theorem cpu_balanceCount_spec (fc : FactorCPU) (fromB toB : scoredBackend)
    (hu : 0 < fc.usagePerConn) :
    (0 < FactorCPU.BalanceCount fc fromB toB ↔
      (13/10 - (FactorCPU.getUsage fc toB).1
          > (13/10 - (FactorCPU.getUsage fc fromB).1) * cpuBalancedRatio ∧
       13/10 - (FactorCPU.getUsage fc toB).2
          > (13/10 - (FactorCPU.getUsage fc fromB).2) * cpuBalancedRatio)) ∧
    ((13/10 - (FactorCPU.getUsage fc toB).1
          > (13/10 - (FactorCPU.getUsage fc fromB).1) * cpuBalancedRatio ∧
      13/10 - (FactorCPU.getUsage fc toB).2
          > (13/10 - (FactorCPU.getUsage fc fromB).2) * cpuBalancedRatio) →
      FactorCPU.BalanceCount fc fromB toB = max 1 ⌊1 / fc.usagePerConn / balanceRatio4Cpu⌋) ∧
    (¬ (13/10 - (FactorCPU.getUsage fc toB).1
          > (13/10 - (FactorCPU.getUsage fc fromB).1) * cpuBalancedRatio ∧
        13/10 - (FactorCPU.getUsage fc toB).2
          > (13/10 - (FactorCPU.getUsage fc fromB).2) * cpuBalancedRatio) →
      FactorCPU.BalanceCount fc fromB toB = 0) := by
  have hq : 0 < 1 / fc.usagePerConn / balanceRatio4Cpu := by
    rw [balanceRatio4Cpu]
    positivity
  have htr : goTrunc (1 / fc.usagePerConn / balanceRatio4Cpu)
      = ⌊1 / fc.usagePerConn / balanceRatio4Cpu⌋ := by
    unfold goTrunc
    rw [if_pos (le_of_lt hq)]
  have heq : ∀ hcond : (13/10 - (FactorCPU.getUsage fc toB).1
          > (13/10 - (FactorCPU.getUsage fc fromB).1) * cpuBalancedRatio ∧
       13/10 - (FactorCPU.getUsage fc toB).2
          > (13/10 - (FactorCPU.getUsage fc fromB).2) * cpuBalancedRatio),
      FactorCPU.BalanceCount fc fromB toB = max 1 ⌊1 / fc.usagePerConn / balanceRatio4Cpu⌋ := by
    intro hcond
    simp only [FactorCPU.BalanceCount]
    rw [if_pos hcond, htr]
    by_cases hgt : 1 < ⌊1 / fc.usagePerConn / balanceRatio4Cpu⌋
    · rw [if_pos hgt, max_eq_right (le_of_lt hgt)]
    · rw [if_neg hgt, max_eq_left (by omega)]
  have hzero : ∀ hcond : ¬ (13/10 - (FactorCPU.getUsage fc toB).1
          > (13/10 - (FactorCPU.getUsage fc fromB).1) * cpuBalancedRatio ∧
       13/10 - (FactorCPU.getUsage fc toB).2
          > (13/10 - (FactorCPU.getUsage fc fromB).2) * cpuBalancedRatio),
      FactorCPU.BalanceCount fc fromB toB = 0 := by
    intro hcond
    simp only [FactorCPU.BalanceCount]
    rw [if_neg hcond]
  refine ⟨⟨?_, ?_⟩, heq, hzero⟩
  · intro hpos
    by_contra hcond
    rw [hzero hcond] at hpos
    exact absurd hpos (by norm_num)
  · intro hcond
    rw [heq hcond]
    have : (1:ℤ) ≤ max 1 ⌊1 / fc.usagePerConn / balanceRatio4Cpu⌋ := le_max_left _ _
    omega

def c6fc : FactorCPU :=
  { snapshot := [(("f"), { updatedTime := 0, avgUsage := 9/10, latestUsage := 9/10, connCount := 0 }),
                 (("t"), { updatedTime := 0, avgUsage := 1/5, latestUsage := 1/5, connCount := 0 })],
    lastMetricTime := 0, usagePerConn := 1/100, bitNum := 5 }

def c6from : scoredBackend := { addr := "f", connCount := 0, connScore := 0, score := 0 }

def c6to : scoredBackend := { addr := "t", connCount := 0, connScore := 0, score := 0 }

/-- Witness for `cpu_balanceCount_spec`: a 0.9-vs-0.2 usage pair triggers
migration with count `max 1 ⌊100/600⌋ = 1`. -/
theorem cpu_balanceCount_spec_witness :
    FactorCPU.BalanceCount c6fc c6from c6to
      = max 1 ⌊1 / c6fc.usagePerConn / balanceRatio4Cpu⌋ :=
  (cpu_balanceCount_spec c6fc c6from c6to (by norm_num [c6fc])).2.1
    (by
      norm_num [FactorCPU.getUsage, mapFind?, c6fc, c6from, c6to, cpuBalancedRatio,
        show ("f":String) ≠ "t" by decide, show ("t":String) ≠ "f" by decide])

/-! ## C1: sub-score bounds -/

theorem getUsage_snd_le_one (fc : FactorCPU) (b : scoredBackend) :
    (FactorCPU.getUsage fc b).2 ≤ 1 := by
  unfold FactorCPU.getUsage
  split
  · norm_num
  · split
    · norm_num
    · simp only
      split
      · norm_num
      · rename_i hgt
        exact le_of_not_lt hgt

theorem goTrunc_nonneg {q : ℚ} (h : 0 ≤ q) : 0 ≤ goTrunc q := by
  unfold goTrunc
  rw [if_pos h]
  exact Int.floor_nonneg.2 h

theorem goTrunc_le_100 {q : ℚ} (h : q ≤ 100) : goTrunc q ≤ 100 := by
  unfold goTrunc
  split
  · calc ⌊q⌋ ≤ ⌊(100:ℚ)⌋ := Int.floor_le_floor h
      _ = 100 := by norm_num
  · rename_i hq
    have h1 : 0 ≤ ⌊-q⌋ := Int.floor_nonneg.2 (by push_neg at hq; linarith)
    omega

theorem goDiv_nonneg {a b : ℤ} (ha : 0 ≤ a) (hb : 0 ≤ b) : 0 ≤ goDiv a b := by
  unfold goDiv
  rw [if_pos ha]
  exact Int.ediv_nonneg ha hb

theorem goDiv_five_le_20 {a : ℤ} (h : a ≤ 100) : goDiv a 5 ≤ 20 := by
  unfold goDiv
  split
  · have h2 := Int.ediv_le_ediv (by norm_num : (0:ℤ) < 5) h
    norm_num at h2
    exact h2
  · rename_i ha
    have h1 : 0 ≤ -a / 5 := Int.ediv_nonneg (by omega) (by norm_num)
    omega

/-- C1 (amended): every sub-score folded by `FactorHealth.UpdateScore` lies
in `[0, 2^2)`; every sub-score folded by `FactorCPU.UpdateScore` is strictly
below `2^5`, and is non-negative whenever the extrapolated (clamped) latest
usage from `getUsage` is non-negative — the extrapolation can drive it
negative, and then the sub-score itself can be negative. -/
theorem subscore_bounds (fh : FactorHealth) (addr : String) (fc : FactorCPU)
    (b : scoredBackend) :
    (0 ≤ FactorHealth.caclErrScore fh addr ∧ FactorHealth.caclErrScore fh addr < 2^2) ∧
    FactorCPU.subScore fc b < 2^5 ∧
    (0 ≤ (FactorCPU.getUsage fc b).2 → 0 ≤ FactorCPU.subScore fc b) := by
  refine ⟨⟨(caclErrScore_bound fh addr).1, by
    have := (caclErrScore_bound fh addr).2
    omega⟩, ?_, ?_⟩
  · have h1 : (FactorCPU.getUsage fc b).2 * 100 ≤ 100 := by
      have := getUsage_snd_le_one fc b
      linarith
    have h2 := goTrunc_le_100 h1
    have h3 := goDiv_five_le_20 h2
    unfold FactorCPU.subScore cpuScoreStep
    omega
  · intro h
    have h1 : 0 ≤ (FactorCPU.getUsage fc b).2 * 100 := by linarith
    have h2 := goTrunc_nonneg h1
    have h3 := goDiv_nonneg h2 (by norm_num : (0:ℤ) ≤ 5)
    unfold FactorCPU.subScore cpuScoreStep
    exact h3

def c1fc : FactorCPU :=
  { snapshot := [(("a"), { updatedTime := 5, avgUsage := 0, latestUsage := 0, connCount := 10 })],
    lastMetricTime := 5, usagePerConn := 1/100, bitNum := 5 }

def c1qr : QueryResultCPU :=
  { err := false, empty := false, updateTime := 5, samplePairs := fun _ => [] }

def c1a : scoredBackend := { addr := "a", connCount := 10, connScore := 0, score := 0 }

def c1b : scoredBackend := { addr := "b", connCount := 0, connScore := 0, score := 0 }

/-- Counterexample to C1 as stated: with a two-backend list and fresh
metrics, `FactorCPU.UpdateScore` reaches its scoring loop and folds the
negative sub-score -2 for backend "a" (its extrapolated latest usage is
-0.1), so the folded sub-score is not non-negative. -/
theorem cpu_subscore_negative_cex :
    FactorCPU.subScore c1fc c1a = -2 ∧
    (FactorCPU.UpdateScore c1fc c1qr 5 [c1a, c1b]).2 =
      [addScore c1a (-2) 5, addScore c1b 20 5] := by
  constructor
  · norm_num [FactorCPU.subScore, FactorCPU.getUsage, mapFind?, c1fc, c1a, goDiv, goTrunc,
      cpuScoreStep]
  · norm_num [FactorCPU.UpdateScore, FactorCPU.subScore, FactorCPU.getUsage, mapFind?,
      c1fc, c1qr, c1a, c1b, goDiv, goTrunc, cpuScoreStep, cpuMetricExpDuration,
      show ("a":String) ≠ "b" by decide]

def c1wfc : FactorCPU := { snapshot := [], lastMetricTime := 0, usagePerConn := 0, bitNum := 5 }

/-- Witness for `subscore_bounds`: for a backend missing from the snapshot
the latest usage is 1 and the sub-score 20 is non-negative. -/
theorem subscore_bounds_witness : 0 ≤ FactorCPU.subScore c1wfc c1b :=
  (subscore_bounds ⟨[], [], 2⟩ ("a") c1wfc c1b).2.2
    (by norm_num [FactorCPU.getUsage, mapFind?, c1wfc, c1b])

/-! ## C2: staleness no-op -/

def c2fc : FactorCPU := { snapshot := [], lastMetricTime := 0, usagePerConn := 0, bitNum := 5 }

def c2qr : QueryResultCPU :=
  { err := false, empty := false, updateTime := 1, samplePairs := fun _ => [some (1/2)] }

def c2a : scoredBackend := { addr := "a", connCount := 1, connScore := 1, score := 0 }

def c2b : scoredBackend := { addr := "b", connCount := 1, connScore := 1, score := 0 }

def c2now : ℤ := cpuMetricExpDuration + 2

/-- Counterexample to C2 as stated: a healthy, non-empty query result whose
timestamp is new to `FactorCPU` but already stale (older than 2 minutes):
the call does not score (the backend list comes back unchanged) but it
still rebuilds the snapshot map — here from `[]` to two entries — so it is
not a full no-op on the per-backend snapshot. -/
theorem cpu_stale_snapshot_refresh_cex :
    c2now - c2qr.updateTime > cpuMetricExpDuration ∧
    c2qr.err = false ∧ c2qr.empty = false ∧
    (FactorCPU.UpdateScore c2fc c2qr c2now [c2a, c2b]).2 = [c2a, c2b] ∧
    (FactorCPU.UpdateScore c2fc c2qr c2now [c2a, c2b]).1.snapshot ≠ c2fc.snapshot := by
  refine ⟨by norm_num [c2now, c2qr, cpuMetricExpDuration], rfl, rfl, ?_, ?_⟩
  · norm_num [FactorCPU.UpdateScore, c2fc, c2qr, c2now, cpuMetricExpDuration]
  · norm_num [FactorCPU.UpdateScore, FactorCPU.updateSnapshot, buildSnap, FactorCPU.snapEntry,
      calcAvgUsage, calcAvgUsageStep, cpuEwmaAlpha, mapFind?, mapInsert, c2fc, c2qr, c2a, c2b,
      c2now, cpuMetricExpDuration, List.cons_ne_nil]

/-- C2 (amended): under globally stale metrics no composite score is ever
touched; `FactorHealth` additionally leaves its snapshot untouched, and
`FactorCPU` leaves its entire state untouched provided the stale result's
timestamp is the one it has already seen; a not-yet-seen stale result still
refreshes `FactorCPU`'s snapshot while scores remain untouched. -/
theorem stale_metrics_noop (fh : FactorHealth) (qrs : List QueryResultH)
    (fc : FactorCPU) (qr : QueryResultCPU) (now now' : ℤ)
    (backends bs : List scoredBackend) :
    (now - (FactorHealth.scanIndicators fh qrs).2.2 > errMetricExpDuration →
      (FactorHealth.UpdateScore fh qrs now backends).1.snapshot = fh.snapshot ∧
      (FactorHealth.UpdateScore fh qrs now backends).2 = backends) ∧
    (now' - qr.updateTime > cpuMetricExpDuration →
      now' - fc.lastMetricTime > cpuMetricExpDuration →
      (FactorCPU.UpdateScore fc qr now' bs).2 = bs) ∧
    (qr.updateTime = fc.lastMetricTime →
      now' - fc.lastMetricTime > cpuMetricExpDuration →
      FactorCPU.UpdateScore fc qr now' bs = (fc, bs)) := by
  refine ⟨?_, ?_, ?_⟩
  · intro h
    simp only [FactorHealth.UpdateScore]
    by_cases hlen : backends.length ≤ 1
    · rw [if_pos hlen]
      exact ⟨rfl, rfl⟩
    · rw [if_neg hlen, if_pos h]
      exact ⟨rfl, rfl⟩
  · intro h1 h2
    simp only [FactorCPU.UpdateScore]
    by_cases hlen : bs.length ≤ 1
    · rw [if_pos hlen]
    · rw [if_neg hlen]
      by_cases herr : (qr.err || qr.empty) = true
      · rw [if_pos herr]
      · rw [if_neg herr]
        by_cases hne : (qr.updateTime != fc.lastMetricTime) = true
        · rw [if_pos hne, if_pos h1]
        · rw [if_neg hne, if_pos h2]
  · intro heq h2
    simp only [FactorCPU.UpdateScore]
    by_cases hlen : bs.length ≤ 1
    · rw [if_pos hlen]
    · rw [if_neg hlen]
      by_cases herr : (qr.err || qr.empty) = true
      · rw [if_pos herr]
      · rw [if_neg herr,
          if_neg (by simp [heq] : ¬ ((qr.updateTime != fc.lastMetricTime) = true)),
          if_pos h2]

def c2wfh : FactorHealth := { snapshot := [], indicators := [], bitNum := 2 }

def c2wfc : FactorCPU := { snapshot := [], lastMetricTime := 0, usagePerConn := 0, bitNum := 5 }

def c2wqr : QueryResultCPU :=
  { err := false, empty := false, updateTime := 0, samplePairs := fun _ => [] }

def c2wnow : ℤ := errMetricExpDuration + 1

def c2wnow2 : ℤ := cpuMetricExpDuration + 1

/-- Witness for `stale_metrics_noop` at concrete stale inputs. -/
theorem stale_metrics_noop_witness :
    ((FactorHealth.UpdateScore c2wfh [] c2wnow []).1.snapshot = c2wfh.snapshot ∧
     (FactorHealth.UpdateScore c2wfh [] c2wnow []).2 = []) ∧
    (FactorCPU.UpdateScore c2wfc c2wqr c2wnow2 []).2 = [] ∧
    FactorCPU.UpdateScore c2wfc c2wqr c2wnow2 [] = (c2wfc, []) :=
  ⟨(stale_metrics_noop c2wfh [] c2wfc c2wqr c2wnow c2wnow2 [] []).1
      (by norm_num [FactorHealth.scanIndicators, c2wfh, c2wnow, errMetricExpDuration]),
   (stale_metrics_noop c2wfh [] c2wfc c2wqr c2wnow c2wnow2 [] []).2.1
      (by norm_num [c2wqr, c2wnow2, cpuMetricExpDuration])
      (by norm_num [c2wfc, c2wnow2, cpuMetricExpDuration]),
   (stale_metrics_noop c2wfh [] c2wfc c2wqr c2wnow c2wnow2 [] []).2.2
      (by norm_num [c2wqr, c2wfc])
      (by norm_num [c2wfc, c2wnow2, cpuMetricExpDuration])⟩
